import Mathlib

/-!
Shallow embedding of the `useRouteQuery` hook from `src/index.ts` of the
`vue-route-query-hook` package.

The hook binds a table of reactive parameters (`QueryParams`, a record of
`Ref<QueryValue>`) to the URL query string of a vue-router route.  We model:

* `QueryValue` — the union `string | number | boolean | undefined | null`;
  JS numbers are modelled by `Int`, which is the fragment the hook actually
  exercises (all conversions go through decimal integer literals).
* `LQV` — vue-router's `LocationQueryValue`, i.e. `string | null`.
* `QVal` — a query entry, `LocationQueryValue | LocationQueryValue[]`.
* `Query` — the route's query record, as an ordered association list
  (JS object property order is insertion order; lookups take the pair
  whose key matches first, which agrees with a JS object where keys are
  unique).
* the four operations `convertRouteValue`, `initParamsFromRoute`,
  `updateRouteQuery` and `resetParams`.  Reactive `Ref` cells are modelled
  by explicit state passing: the parameter table is an association list
  `Params`, and an operation that mutates the cells returns the new table.
  `updateRouteQuery` returns the query object submitted to
  `router.replace`.
-/

/-- The value union `QueryValue = string | number | boolean | undefined | null`
from src/index.ts.  JS numbers are restricted to the integer fragment. -/
inductive QueryValue where
  | str (s : String)
  | num (n : Int)
  | bool (b : Bool)
  | undef
  | null
deriving DecidableEq

/-- vue-router's `LocationQueryValue`, i.e. `string | null`. -/
inductive LQV where
  | str (s : String)
  | null
deriving DecidableEq

/-- One entry of a route query record:
`LocationQueryValue | LocationQueryValue[]`. -/
inductive QVal where
  | val (v : LQV)
  | arr (vs : List LQV)
deriving DecidableEq

/-- The route's query record `route.query`, as an ordered association list. -/
abbrev Query := List (String × QVal)

/-- The reactive parameter table: key to current `Ref` value. -/
abbrev Params := List (String × QueryValue)

/-- JS property read `q[key]`: the value of the first pair whose key matches,
`none` when the key is absent (JS `undefined`). -/
def getQ : Query → String → Option QVal
  | [], _ => none
  | p :: rest, key => if p.1 = key then some p.2 else getQ rest key

/-- JS property write `q[key] = v`: replace the first matching pair in place,
or append when the key is absent. -/
def setKey : Query → String → QVal → Query
  | [], key, v => [(key, v)]
  | p :: rest, key, v =>
    if p.1 = key then (key, v) :: rest else p :: setKey rest key v

/-- JS `delete q[key]`: drop every pair with that key. -/
def eraseKey : Query → String → Query
  | [], _ => []
  | p :: rest, key =>
    if p.1 = key then eraseKey rest key else p :: eraseKey rest key

/-- Lookup in the parameter table (`params[key]`), first match. -/
def lookupParam : Params → String → Option QueryValue
  | [], _ => none
  | p :: rest, key => if p.1 = key then some p.2 else lookupParam rest key

/-- The JS value held by the local `stringValue` in `convertRouteValue`:
plain branches produce a string, but the array branch `routeValue[0]` can
also produce `null` (element) or `undefined` (empty array). -/
inductive SVal where
  | str (s : String)
  | null
  | undef
deriving DecidableEq

/-- ASCII whitespace stripped by JS string-to-number conversion. -/
def isJsWhitespace (c : Char) : Bool :=
  c = ' ' || c = '\t' || c = '\n' || c = '\r' || c = '\x0b' || c = '\x0c'

/-- Decimal digit test. -/
def isJsDigit (c : Char) : Bool := '0' ≤ c && c ≤ '9'

/-- Value of a list of decimal digits, most significant first. -/
def digitsVal (l : List Char) : Nat :=
  l.foldl (fun a c => a * 10 + (c.toNat - 48)) 0

/-- Strip leading and trailing JS whitespace from a character list. -/
def trimJs (l : List Char) : List Char :=
  ((l.dropWhile isJsWhitespace).reverse.dropWhile isJsWhitespace).reverse

/-- Modelled from the JS builtin `Number(string)`, restricted to the
optionally signed decimal integer fragment the hook exercises: surrounding
whitespace is dropped, the empty (or all-whitespace) string converts to `0`,
a nonempty digit run with an optional single sign converts to the
corresponding integer, and anything else is NaN (`none`).  Fractional,
hexadecimal, binary, exponent and `Infinity` literals fall outside the
integer value domain of this model. -/
def jsNumberOfString (s : String) : Option Int :=
  match trimJs s.toList with
  | [] => some 0
  | '-' :: rest =>
    if rest ≠ [] ∧ rest.all isJsDigit then some (-(digitsVal rest : Int)) else none
  | '+' :: rest =>
    if rest ≠ [] ∧ rest.all isJsDigit then some (digitsVal rest : Int) else none
  | l =>
    if l.all isJsDigit then some (digitsVal l : Int) else none

/-- `Number(x)` for the three JS shapes `stringValue` can take:
`Number(null) = 0`, `Number(undefined) = NaN`. -/
def jsNumberOfSVal : SVal → Option Int
  | .str s => jsNumberOfString s
  | .null => some 0
  | .undef => none

/-- The JS builtin `String(value)` on a `QueryValue` (canonical string
forms: decimal for numbers, `"true"`/`"false"` for booleans). -/
def jsString : QueryValue → String
  | .str s => s
  | .num n => toString n
  | .bool b => cond b "true" "false"
  | .undef => "undefined"
  | .null => "null"

/-- The expression
`Array.isArray(routeValue) ? routeValue[0] : String(routeValue)` from
`convertRouteValue`.  The array branch takes the first element without
string coercion (`routeValue[0]` is `undefined` on an empty array); the
plain branch applies `String(...)`. -/
def stringValueOf : QVal → SVal
  | .val (.str s) => .str s
  | .val .null => .str "null"
  | .arr [] => .undef
  | .arr (LQV.str s :: _) => .str s
  | .arr (LQV.null :: _) => .null

/-- Reading `stringValue` back as a `QueryValue` (the `return stringValue`
arm of `convertRouteValue`). -/
def svalToQueryValue : SVal → QueryValue
  | .undef => .undef
  | .str s => .str s
  | .null => .null

/-- Recognizer for the string shape of a `QueryValue`. -/
def QueryValue.isStr : QueryValue → Bool
  | .str _ => true
  | _ => false

/-- `convertRouteValue` from src/index.ts.  `routeValue` is
`route.query[key]` (so `none` models JS `undefined`); `originalValue` is
the parameter's current value, used as the type hint. -/
def convertRouteValue (routeValue : Option QVal) (originalValue : QueryValue) :
    QueryValue :=
  match routeValue with
  | none => originalValue
  | some (QVal.val LQV.null) => originalValue
  | some rv =>
    let stringValue := stringValueOf rv
    match originalValue with
    | QueryValue.num _ =>
      match jsNumberOfSVal stringValue with
      | none => originalValue
      | some n => QueryValue.num n
    | QueryValue.bool _ => QueryValue.bool (decide (stringValue = SVal.str "true"))
    | _ => svalToQueryValue stringValue

/-- One iteration of the `for (const key in params)` loop of
`initParamsFromRoute`: skip excluded keys, and overwrite the cell with the
converted route value when `route.query[key]` is neither `undefined` nor
`null`. -/
def initStep (excludeKeys : List String) (query : Query)
    (p : String × QueryValue) : String × QueryValue :=
  if p.1 ∈ excludeKeys then p
  else
    match getQ query p.1 with
    | none => p
    | some (QVal.val LQV.null) => p
    | some rv => (p.1, convertRouteValue (some rv) p.2)

/-- `initParamsFromRoute` from src/index.ts: the parameter table after the
seed-from-query pass over the query snapshot. -/
def initParamsFromRoute (params : Params) (excludeKeys : List String)
    (query : Query) : Params :=
  params.map (initStep excludeKeys query)

/-- The `emptyValueHandle` option. -/
inductive EmptyValueHandle where
  | remove
  | keep
deriving DecidableEq

/-- The emptiness test
`value === undefined || value === null || value === ""` (strict equality:
only the string `""` is caught by the third disjunct). -/
def isEmptyValue : QueryValue → Bool
  | .undef => true
  | .null => true
  | .str s => decide (s = "")
  | _ => false

/-- One iteration of the `for (const key in params)` loop of
`updateRouteQuery`, transforming the working copy `currentQuery`. -/
def updateStep (excludeKeys : List String) (handle : EmptyValueHandle)
    (q : Query) (p : String × QueryValue) : Query :=
  if p.1 ∈ excludeKeys then q
  else if isEmptyValue p.2 then
    match handle with
    | .remove => eraseKey q p.1
    | .keep => setKey q p.1 (QVal.val (LQV.str ""))
  else setKey q p.1 (QVal.val (LQV.str (jsString p.2)))

/-- `updateRouteQuery` from src/index.ts: the query object submitted to
`router.replace`, built by folding the loop body over the parameter table,
starting from a full copy `{ ...route.query }` of the current snapshot. -/
def updateRouteQuery (params : Params) (excludeKeys : List String)
    (handle : EmptyValueHandle) (currentQuery : Query) : Query :=
  params.foldl (updateStep excludeKeys handle) currentQuery

/-- The type-derived defaults of `resetParams`:
number to `0`, boolean to `false`, anything else to `""`. -/
def typeDefault : QueryValue → QueryValue
  | .num _ => .num 0
  | .bool _ => .bool false
  | _ => .str ""

/-- One iteration of the `for (const key in params)` loop of `resetParams`:
`key in resetValues` is key presence (an entry explicitly holding
`undefined` or `null` still counts), so the optional mapping is an
association list whose lookup decides presence. -/
def resetStep (excludeKeys : List String)
    (resetValues : Option Params) (p : String × QueryValue) :
    String × QueryValue :=
  if p.1 ∈ excludeKeys then p
  else
    match resetValues with
    | some rv =>
      match lookupParam rv p.1 with
      | some w => (p.1, w)
      | none => (p.1, typeDefault p.2)
    | none => (p.1, typeDefault p.2)

/-- `resetParams` from src/index.ts: the parameter table after a reset. -/
def resetParams (params : Params) (excludeKeys : List String)
    (resetValues : Option Params) : Params :=
  params.map (resetStep excludeKeys resetValues)

/-! ### Basic lemmas about the query and parameter association lists -/

theorem getQ_setKey_self (q : Query) (k : String) (v : QVal) :
    getQ (setKey q k v) k = some v := by
  induction q with
  | nil => simp [setKey, getQ]
  | cons p rest ih =>
    by_cases h : p.1 = k
    · simp [setKey, getQ, h]
    · simp [setKey, getQ, h, ih]

theorem getQ_setKey_ne (q : Query) (k : String) (v : QVal) (k' : String)
    (h : k ≠ k') : getQ (setKey q k v) k' = getQ q k' := by
  induction q with
  | nil => simp [setKey, getQ, h]
  | cons p rest ih =>
    by_cases hp : p.1 = k
    · simp [setKey, getQ, hp, h]
    · simp [setKey, getQ, hp, ih]

theorem getQ_eraseKey_self (q : Query) (k : String) :
    getQ (eraseKey q k) k = none := by
  induction q with
  | nil => simp [eraseKey, getQ]
  | cons p rest ih =>
    by_cases h : p.1 = k
    · simp [eraseKey, h, ih]
    · simp [eraseKey, getQ, h, ih]

theorem getQ_eraseKey_ne (q : Query) (k k' : String) (h : k ≠ k') :
    getQ (eraseKey q k) k' = getQ q k' := by
  induction q with
  | nil => simp [eraseKey]
  | cons p rest ih =>
    by_cases hp : p.1 = k
    · simp [eraseKey, getQ, hp, h, ih]
    · simp [eraseKey, getQ, hp, ih]

theorem lookupParam_eq_of_mem (params : Params) (key : String) (v : QueryValue)
    (hnd : (params.map Prod.fst).Nodup) (hmem : (key, v) ∈ params) :
    lookupParam params key = some v := by
  induction params with
  | nil => simp at hmem
  | cons a rest ih =>
    simp only [List.map_cons, List.nodup_cons] at hnd
    rcases List.mem_cons.mp hmem with h | h
    · rw [← h]
      simp [lookupParam]
    · have hne : a.1 ≠ key := by
        intro hc
        exact hnd.1 (hc ▸ List.mem_map_of_mem Prod.fst h)
      simp [lookupParam, hne, ih hnd.2 h]

theorem lookupParam_map_fst (f : String × QueryValue → String × QueryValue)
    (hf : ∀ p, (f p).1 = p.1) (l : Params) (key : String) :
    lookupParam (l.map f) key
      = (lookupParam l key).map (fun v => (f (key, v)).2) := by
  induction l with
  | nil => simp [lookupParam]
  | cons a rest ih =>
    obtain ⟨a1, a2⟩ := a
    by_cases h : a1 = key
    · subst h
      simp [lookupParam, hf]
    · have h2 : (f (a1, a2)).1 = key ↔ False := by simp [hf, h]
      simp [lookupParam, h2, h, ih]

theorem initStep_fst (ex : List String) (q : Query) (p : String × QueryValue) :
    (initStep ex q p).1 = p.1 := by
  unfold initStep
  split
  · rfl
  · split <;> rfl

theorem resetStep_fst (ex : List String) (rvs : Option Params)
    (p : String × QueryValue) : (resetStep ex rvs p).1 = p.1 := by
  unfold resetStep
  split
  · rfl
  · split
    · split <;> rfl
    · rfl

/-! ### Lemmas about the commit loop -/

theorem getQ_updateStep_preserved (ex : List String) (h : EmptyValueHandle)
    (q : Query) (p : String × QueryValue) (key : String)
    (hp : p.1 ∈ ex ∨ p.1 ≠ key) :
    getQ (updateStep ex h q p) key = getQ q key := by
  rcases hp with hp | hp
  · simp [updateStep, hp]
  · unfold updateStep
    split
    · rfl
    · split
      · cases h
        · exact getQ_eraseKey_ne q p.1 key hp
        · exact getQ_setKey_ne q p.1 _ key hp
      · exact getQ_setKey_ne q p.1 _ key hp

theorem getQ_update_preserved (params : Params) (ex : List String)
    (h : EmptyValueHandle) (q : Query) (key : String)
    (hp : ∀ p ∈ params, p.1 ∈ ex ∨ p.1 ≠ key) :
    getQ (updateRouteQuery params ex h q) key = getQ q key := by
  induction params generalizing q with
  | nil => rfl
  | cons p rest ih =>
    show getQ (updateRouteQuery rest ex h (updateStep ex h q p)) key = getQ q key
    rw [ih (updateStep ex h q p) (fun p2 hp2 => hp p2 (List.mem_cons_of_mem p hp2)),
      getQ_updateStep_preserved ex h q p key (hp p (List.mem_cons_self p rest))]

theorem getQ_updateStep_self (ex : List String) (h : EmptyValueHandle)
    (q : Query) (key : String) (v : QueryValue) (hex : key ∉ ex) :
    getQ (updateStep ex h q (key, v)) key =
      if isEmptyValue v then
        (match h with
         | .remove => none
         | .keep => some (QVal.val (LQV.str "")))
      else some (QVal.val (LQV.str (jsString v))) := by
  unfold updateStep
  simp only [hex, if_false]
  by_cases he : isEmptyValue v
  · simp only [he, if_true]
    cases h
    · exact getQ_eraseKey_self q key
    · exact getQ_setKey_self q key _
  · simp only [he, if_false, Bool.false_eq_true]
    exact getQ_setKey_self q key _

theorem getQ_update_mem (params : Params) (ex : List String)
    (h : EmptyValueHandle) (q : Query) (key : String) (v : QueryValue)
    (hnd : (params.map Prod.fst).Nodup) (hmem : (key, v) ∈ params)
    (hex : key ∉ ex) :
    getQ (updateRouteQuery params ex h q) key =
      if isEmptyValue v then
        (match h with
         | .remove => none
         | .keep => some (QVal.val (LQV.str "")))
      else some (QVal.val (LQV.str (jsString v))) := by
  induction params generalizing q with
  | nil => simp at hmem
  | cons p rest ih =>
    simp only [List.map_cons, List.nodup_cons] at hnd
    show getQ (updateRouteQuery rest ex h (updateStep ex h q p)) key = _
    rcases List.mem_cons.mp hmem with heq | hmem2
    · rw [← heq] at hnd ⊢
      have hrest : ∀ p2 ∈ rest, p2.1 ∈ ex ∨ p2.1 ≠ key := by
        intro p2 hp2
        right
        intro hc
        have hm : p2.1 ∈ List.map Prod.fst rest :=
          List.mem_map_of_mem Prod.fst hp2
        rw [hc] at hm
        exact hnd.1 hm
      rw [getQ_update_preserved rest ex h _ key hrest]
      exact getQ_updateStep_self ex h q key v hex
    · exact ih (updateStep ex h q p) hnd.2 hmem2

/-! ### Claim theorems -/

/-- C1: with `emptyValueHandle = remove`, a commit-to-query pass in which a
non-excluded key's reactive value is empty (`""`, `undefined` or `null`)
leaves that key absent from the query mapping submitted to the router,
whatever the prior snapshot held at that key. -/
theorem update_remove_empty_absent (params : Params) (ex : List String)
    (q : Query) (key : String) (v : QueryValue)
    (hnd : (params.map Prod.fst).Nodup) (hmem : (key, v) ∈ params)
    (hex : key ∉ ex) (he : isEmptyValue v = true) :
    getQ (updateRouteQuery params ex .remove q) key = none := by
  rw [getQ_update_mem params ex .remove q key v hnd hmem hex]
  simp [he]

theorem update_remove_empty_absent_witness :
    getQ (updateRouteQuery [("kw", QueryValue.str "")] [] .remove
        [("kw", QVal.val (LQV.str "old")), ("x", QVal.val (LQV.str "1"))])
      "kw" = none :=
  update_remove_empty_absent [("kw", QueryValue.str "")] []
    [("kw", QVal.val (LQV.str "old")), ("x", QVal.val (LQV.str "1"))]
    "kw" (QueryValue.str "") (by decide) (by decide) (by decide) (by decide)

/-- C2: with `emptyValueHandle = keep`, a commit-to-query pass maps a
non-excluded key whose reactive value is empty (`""`, `undefined` or
`null`) to the literal empty string, and any other value to its canonical
string form. -/
theorem update_keep_maps_string (params : Params) (ex : List String)
    (q : Query) (key : String) (v : QueryValue)
    (hnd : (params.map Prod.fst).Nodup) (hmem : (key, v) ∈ params)
    (hex : key ∉ ex) :
    getQ (updateRouteQuery params ex .keep q) key =
      some (QVal.val (LQV.str (if isEmptyValue v then "" else jsString v))) := by
  rw [getQ_update_mem params ex .keep q key v hnd hmem hex]
  by_cases he : isEmptyValue v <;> simp [he]

theorem update_keep_maps_string_witness :
    getQ (updateRouteQuery [("kw", QueryValue.undef)] [] .keep
        [("kw", QVal.val (LQV.str "old"))]) "kw"
      = some (QVal.val (LQV.str "")) :=
  update_keep_maps_string [("kw", QueryValue.undef)] []
    [("kw", QVal.val (LQV.str "old"))] "kw" QueryValue.undef
    (by decide) (by decide) (by decide)

/-- C3: seeding from the query `{page: "3"}` into a parameter holding the
number `1` yields the number `3`, and committing the seeded table back
against that same snapshot yields `{page: "3"}` again. -/
theorem roundtrip_page_three :
    initParamsFromRoute [("page", QueryValue.num 1)] []
        [("page", QVal.val (LQV.str "3"))]
      = [("page", QueryValue.num 3)] ∧
    updateRouteQuery
        (initParamsFromRoute [("page", QueryValue.num 1)] []
          [("page", QVal.val (LQV.str "3"))])
        [] .remove [("page", QVal.val (LQV.str "3"))]
      = [("page", QVal.val (LQV.str "3"))] := by
  constructor
  · decide
  · decide

/-- C4: a key listed in `excludeKeys` is inert in both directions: the
seed pass leaves its reactive cell at its old value and never reads the
query at that key (the pass gives the same table when that query entry is
deleted first), and the commit pass carries the key's prior query entry
over untouched. -/
theorem excluded_key_untouched (params : Params) (ex : List String)
    (handle : EmptyValueHandle) (q : Query) (key : String) (hk : key ∈ ex) :
    lookupParam (initParamsFromRoute params ex q) key = lookupParam params key ∧
    initParamsFromRoute params ex q
      = initParamsFromRoute params ex (eraseKey q key) ∧
    getQ (updateRouteQuery params ex handle q) key = getQ q key := by
  refine ⟨?_, ?_, ?_⟩
  · rw [initParamsFromRoute, lookupParam_map_fst _ (initStep_fst ex q)]
    have hv : ∀ v, (initStep ex q (key, v)).2 = v := by
      intro v
      simp [initStep, hk]
    cases lookupParam params key <;> simp [hv]
  · unfold initParamsFromRoute
    apply List.map_congr_left
    intro p hp
    by_cases hpe : p.1 ∈ ex
    · simp [initStep, hpe]
    · have hne : key ≠ p.1 := by
        intro hc
        exact hpe (hc ▸ hk)
      simp [initStep, hpe, getQ_eraseKey_ne q key p.1 hne]
  · refine getQ_update_preserved params ex handle q key (fun p _ => ?_)
    by_cases hpk : p.1 = key
    · exact Or.inl (hpk ▸ hk)
    · exact Or.inr hpk

theorem excluded_key_untouched_witness :
    (lookupParam
        (initParamsFromRoute [("flag", QueryValue.str "inner")] ["flag"]
          [("flag", QVal.val (LQV.str "outer"))]) "flag"
      = lookupParam [("flag", QueryValue.str "inner")] "flag") ∧
    (initParamsFromRoute [("flag", QueryValue.str "inner")] ["flag"]
        [("flag", QVal.val (LQV.str "outer"))]
      = initParamsFromRoute [("flag", QueryValue.str "inner")] ["flag"]
          (eraseKey [("flag", QVal.val (LQV.str "outer"))] "flag")) ∧
    getQ (updateRouteQuery [("flag", QueryValue.str "inner")] ["flag"]
        .remove [("flag", QVal.val (LQV.str "outer"))]) "flag"
      = getQ [("flag", QVal.val (LQV.str "outer"))] "flag" :=
  excluded_key_untouched [("flag", QueryValue.str "inner")] ["flag"]
    .remove [("flag", QVal.val (LQV.str "outer"))] "flag" (by decide)

/-- C5: when a parameter currently holds a number, the seed pass converts
the query entry's (first-element-only) string through numeric parse, and a
parse that yields NaN leaves the parameter at its prior value; the pass is
a total function, so no error can be raised. -/
theorem seed_number_parse_failure (params : Params) (ex : List String)
    (q : Query) (key : String) (n : Int) (rv : QVal)
    (hnd : (params.map Prod.fst).Nodup)
    (hmem : (key, QueryValue.num n) ∈ params) (hex : key ∉ ex)
    (hq : getQ q key = some rv)
    (hparse : jsNumberOfSVal (stringValueOf rv) = none) :
    lookupParam (initParamsFromRoute params ex q) key
      = some (QueryValue.num n) := by
  rw [initParamsFromRoute, lookupParam_map_fst _ (initStep_fst ex q),
    lookupParam_eq_of_mem params key _ hnd hmem]
  show some (initStep ex q (key, QueryValue.num n)).2 = _
  unfold initStep
  simp only [hex, if_false]
  rw [hq]
  rcases rv with (⟨s⟩ | _) | vs
  · simp only [stringValueOf] at hparse
    simp [convertRouteValue, stringValueOf, hparse]
  · rfl
  · simp [convertRouteValue, hparse]

theorem seed_number_parse_failure_witness :
    lookupParam
        (initParamsFromRoute [("page", QueryValue.num 5)] []
          [("page", QVal.val (LQV.str "abc"))]) "page"
      = some (QueryValue.num 5) :=
  seed_number_parse_failure [("page", QueryValue.num 5)] []
    [("page", QVal.val (LQV.str "abc"))] "page" 5
    (QVal.val (LQV.str "abc")) (by decide) (by decide) (by decide)
    (by decide) (by decide)

/-- C6: when a parameter currently holds a boolean, `convertRouteValue`
yields `true` exactly when the collapsed query string is `"true"`, and
`false` for every other string (including `"false"`, `"1"` or garbage);
the conversion is total, so it can never fail. -/
theorem convert_bool_true_iff (b : Bool) (rv : QVal)
    (hrv : rv ≠ QVal.val LQV.null) :
    convertRouteValue (some rv) (QueryValue.bool b)
      = QueryValue.bool (decide (stringValueOf rv = SVal.str "true")) := by
  rcases rv with (⟨s⟩ | _) | vs
  · rfl
  · exact absurd rfl hrv
  · rfl

theorem convert_bool_true_iff_witness :
    convertRouteValue (some (QVal.val (LQV.str "maybe")))
        (QueryValue.bool true)
      = QueryValue.bool false :=
  convert_bool_true_iff true (QVal.val (LQV.str "maybe")) (by decide)

/-- C7: reset assigns, for every non-excluded key, the entry of the
optional input mapping verbatim when that key is present there (presence,
not truthiness: an entry explicitly holding `undefined` or `null` counts),
and otherwise the default derived from the cell's current runtime type
(`0` for number, `false` for boolean, `""` for anything else). -/
theorem reset_assigns (params : Params) (ex : List String)
    (rvs : Option Params) (key : String) (v : QueryValue)
    (hnd : (params.map Prod.fst).Nodup) (hmem : (key, v) ∈ params)
    (hex : key ∉ ex) :
    lookupParam (resetParams params ex rvs) key =
      some (match rvs with
            | some m =>
              (match lookupParam m key with
               | some w => w
               | none => typeDefault v)
            | none => typeDefault v) := by
  rw [resetParams, lookupParam_map_fst _ (resetStep_fst ex rvs),
    lookupParam_eq_of_mem params key v hnd hmem]
  show some (resetStep ex rvs (key, v)).2 = _
  unfold resetStep
  simp only [hex, if_false]
  rcases rvs with _ | m
  · rfl
  · cases hm : lookupParam m key <;> simp [hm]

theorem reset_assigns_witness :
    (lookupParam
        (resetParams [("page", QueryValue.num 42), ("kw", QueryValue.str "hello")]
          [] (some [("page", QueryValue.undef)])) "page"
      = some QueryValue.undef) ∧
    (lookupParam
        (resetParams [("page", QueryValue.num 42), ("kw", QueryValue.str "hello")]
          [] (some [("page", QueryValue.undef)])) "kw"
      = some (QueryValue.str "")) := by
  constructor
  · exact reset_assigns
      [("page", QueryValue.num 42), ("kw", QueryValue.str "hello")] []
      (some [("page", QueryValue.undef)]) "page" (QueryValue.num 42)
      (by decide) (by decide) (by decide)
  · exact reset_assigns
      [("page", QueryValue.num 42), ("kw", QueryValue.str "hello")] []
      (some [("page", QueryValue.undef)]) "kw" (QueryValue.str "hello")
      (by decide) (by decide) (by decide)

/-- C8: a key present in the current query snapshot but foreign to the
parameter table survives a commit-to-query pass with its value unchanged,
because the working copy starts as a full copy of the snapshot. -/
theorem update_frame_foreign_key (params : Params) (ex : List String)
    (handle : EmptyValueHandle) (q : Query) (key : String)
    (hk : key ∉ params.map Prod.fst) :
    getQ (updateRouteQuery params ex handle q) key = getQ q key := by
  refine getQ_update_preserved params ex handle q key (fun p hp => ?_)
  right
  intro hc
  have hm : p.1 ∈ List.map Prod.fst params := List.mem_map_of_mem Prod.fst hp
  rw [hc] at hm
  exact hk hm

theorem update_frame_foreign_key_witness :
    getQ (updateRouteQuery [("page", QueryValue.num 2)] [] .remove
        [("tab", QVal.val (LQV.str "info")), ("page", QVal.val (LQV.str "1"))])
      "tab" = some (QVal.val (LQV.str "info")) :=
  (update_frame_foreign_key [("page", QueryValue.num 2)] [] .remove
    [("tab", QVal.val (LQV.str "info")), ("page", QVal.val (LQV.str "1"))]
    "tab" (by decide)).trans (by decide)

/-- C9 counterexample: a defined, non-null query entry — the one-element
array holding `null` — seeded into a string-typed parameter assigns `null`,
not a string: the array branch collapses to its first element without
string coercion. -/
theorem convert_string_hint_counterexample :
    convertRouteValue (some (QVal.arr [LQV.null])) (QueryValue.str "x")
        = QueryValue.null ∧
    (convertRouteValue (some (QVal.arr [LQV.null]))
        (QueryValue.str "x")).isStr = false := by
  decide

/-- C9 as amended: for a parameter whose current value is a string,
`undefined` or `null`, the conversion assigns the query entry's string
whenever the entry is a plain value (necessarily a string after the null
check) or a multi-valued entry whose first element is a string; a
multi-valued entry whose first element is `null` (or an empty array) falls
outside this guarantee. -/
theorem convert_string_hint_assigns (o : QueryValue) (s t : String)
    (vs : List LQV)
    (ho : o.isStr = true ∨ o = QueryValue.undef ∨ o = QueryValue.null) :
    convertRouteValue (some (QVal.val (LQV.str s))) o = QueryValue.str s ∧
    convertRouteValue (some (QVal.arr (LQV.str t :: vs))) o
      = QueryValue.str t := by
  rcases o with u | n | b | _ | _
  · exact ⟨rfl, rfl⟩
  · simp [QueryValue.isStr] at ho
  · simp [QueryValue.isStr] at ho
  · exact ⟨rfl, rfl⟩
  · exact ⟨rfl, rfl⟩

theorem convert_string_hint_assigns_witness :
    convertRouteValue (some (QVal.val (LQV.str "a"))) (QueryValue.str "x")
        = QueryValue.str "a" ∧
    convertRouteValue (some (QVal.arr [LQV.str "b"])) (QueryValue.str "x")
        = QueryValue.str "b" :=
  convert_string_hint_assigns (QueryValue.str "x") "a" "b" [] (by decide)

/-- C10: seeding the query value `""` into a parameter currently holding
the number `5` assigns the number `0` (`Number("") = 0`, not NaN): the
empty string passes the outer presence check, and the numeric parse
succeeds with `0` instead of preserving the prior value. -/
theorem seed_empty_string_gives_zero :
    initParamsFromRoute [("page", QueryValue.num 5)] []
        [("page", QVal.val (LQV.str ""))]
      = [("page", QueryValue.num 0)] := by
  decide
